import Mathlib

/-!
Verification of the request-signing and transport core of python-aliyun
(aliyun/connection.py).  Byte strings are modelled as List Nat (each entry
one byte value), Python dicts as association lists with unique keys kept
by an overwriting set operation, and the network as an explicit fetch
oracle.  All definitions follow the source code of aliyun/connection.py.
-/

namespace Aliyun

/-- UTF-8 encoding of a single Unicode code point, as byte values. -/
def utf8Bytes (c : Nat) : List Nat :=
  if c < 128 then [c]
  else if c < 2048 then [192 ||| (c >>> 6), 128 ||| (c &&& 63)]
  else if c < 65536 then
    [224 ||| (c >>> 12), 128 ||| ((c >>> 6) &&& 63), 128 ||| (c &&& 63)]
  else
    [240 ||| (c >>> 18), 128 ||| ((c >>> 12) &&& 63),
     128 ||| ((c >>> 6) &&& 63), 128 ||| (c &&& 63)]

/-- UTF-8 encoding of a whole string, as a list of byte values.  This is
the semantics of Python 2 s.encode(utf8) used in Connection._percent_encode. -/
def utf8Encode (s : String) : List Nat :=
  (s.data.map (fun c => utf8Bytes c.toNat)).flatten

/-- Bytes left unescaped by urllib.quote with safe set to the tilde:
the always safe characters A-Z a-z 0-9 underscore dot dash, plus tilde. -/
def isSafeByte (b : Nat) : Bool :=
  (65 ≤ b && b ≤ 90) || (97 ≤ b && b ≤ 122) || (48 ≤ b && b ≤ 57) ||
  b == 95 || b == 46 || b == 45 || b == 126

/-- Upper-case hexadecimal digit for a value below 16. -/
def hexUpperDigit (n : Nat) : Char :=
  if n < 10 then Char.ofNat (48 + n) else Char.ofNat (55 + n)

/-- Quoting of one byte as done by urllib.quote: a safe byte stands for
itself, any other byte becomes a percent sign and two hex digits. -/
def percentEncodeByte (b : Nat) : String :=
  if isSafeByte b then String.singleton (Char.ofNat b)
  else String.mk ['%', hexUpperDigit (b / 16), hexUpperDigit (b % 16)]

/-- urllib.quote over a byte string with safe set to the tilde, the
byte-level core of Connection._percent_encode. -/
def percentEncodeBytes : List Nat → String
  | [] => ""
  | b :: bs => percentEncodeByte b ++ percentEncodeBytes bs

/-- A Python value passed to Connection._percent_encode: either a byte
string (already UTF-8 after the decode and re-encode round trip) or an
integer, which the source coerces with the unicode constructor. -/
inductive PyVal where
  | str (bytes : List Nat)
  | int (n : Int)

/-- Connection._percent_encode with UTF-8 encoding: a byte string is
quoted directly; a non-string value is coerced to its decimal string
form first (the source falls back to unicode(request) on TypeError). -/
def percentEncode : PyVal → String
  | .str bs => percentEncodeBytes bs
  | .int n => percentEncodeBytes (utf8Encode (toString n))

theorem percentEncodeBytes_append (a b : List Nat) :
    percentEncodeBytes (a ++ b) = percentEncodeBytes a ++ percentEncodeBytes b := by
  induction a with
  | nil => simp [percentEncodeBytes]
  | cons x xs ih =>
      simp only [List.cons_append, percentEncodeBytes, List.append_eq, ih,
        String.append_assoc]

/-- C4: the percent encoder satisfies the four fixed-input equations of
the unit test: space maps to percent twenty, star to percent two A, the
input tilde percent seven E maps to tilde percent two five seven E, and
the integer forty-two is coerced to its decimal string. -/
theorem percentEncode_fixed_inputs :
    percentEncode (.str (utf8Encode " ")) = "%20" ∧
    percentEncode (.str (utf8Encode "*")) = "%2A" ∧
    percentEncode (.str (utf8Encode "~%7E")) = "~%257E" ∧
    percentEncode (.int 42) = "42" := by
  decide

/-- C5 counterexample: on the concrete input tilde percent seven E the
encoder returns tilde percent two five seven E, not the double tilde the
claimed normalization of percent seven E back to a tilde would produce. -/
theorem percentEncode_counterexample_no_normalization :
    percentEncode (.str (utf8Encode "~%7E")) = "~%257E" ∧
    ("~%257E" : String) ≠ "~~" := by
  decide

/-- C5 amended: a literal percent seven E in the input is not normalized
back to a tilde; it is escaped byte by byte (the percent sign becomes
percent two five), so any occurrence of percent seven E in the input
yields percent two five seven E in the output, while a raw tilde byte is
unreserved and passes through unescaped. -/
theorem percentEncode_encoded_tilde_escaped (pre post : List Nat) :
    percentEncodeBytes (pre ++ utf8Encode "%7E" ++ post) =
      percentEncodeBytes pre ++ "%257E" ++ percentEncodeBytes post ∧
    percentEncodeBytes (pre ++ utf8Encode "~" ++ post) =
      percentEncodeBytes pre ++ "~" ++ percentEncodeBytes post := by
  have h1 : percentEncodeBytes (utf8Encode "%7E") = "%257E" := by decide
  have h2 : percentEncodeBytes (utf8Encode "~") = "~" := by decide
  constructor
  · rw [percentEncodeBytes_append, percentEncodeBytes_append, h1,
      String.append_assoc]
  · rw [percentEncodeBytes_append, percentEncodeBytes_append, h2,
      String.append_assoc]

/-- Rotate a 32-bit word left by n bits. -/
def rotl (n x : Nat) : Nat := ((x <<< n) ||| (x >>> (32 - n))) % 4294967296

/-- Big-endian byte representation of a number with a fixed byte width. -/
def beBytes : Nat → Nat → List Nat
  | 0, _ => []
  | k + 1, n => beBytes k (n >>> 8) ++ [n &&& 255]

/-- SHA-1 padding: append the byte 128, zero bytes up to fifty-six modulo
sixty-four, then the bit length as eight big-endian bytes. -/
def sha1Pad (msg : List Nat) : List Nat :=
  msg ++ [128] ++ List.replicate ((119 - msg.length % 64) % 64) 0
      ++ beBytes 8 (msg.length * 8)

/-- Split a byte list into chunks of sixty-four bytes, with explicit fuel. -/
def chunksAux : Nat → List Nat → List (List Nat)
  | 0, _ => []
  | _ + 1, [] => []
  | n + 1, l => l.take 64 :: chunksAux n (l.drop 64)

/-- Big-endian 32-bit words from a byte list. -/
def toWords : List Nat → List Nat
  | a :: b :: c :: d :: rest => (((a * 256 + b) * 256 + c) * 256 + d) :: toWords rest
  | _ => []

/-- Extend the sixteen schedule words to eighty; the accumulator holds
the words newest first. -/
def scheduleAux : Nat → List Nat → List Nat
  | 0, acc => acc
  | n + 1, acc =>
      scheduleAux n
        (rotl 1 ((acc.getD 2 0) ^^^ (acc.getD 7 0) ^^^ (acc.getD 13 0) ^^^ (acc.getD 15 0))
          :: acc)

/-- The eighty-word SHA-1 message schedule of one block. -/
def schedule (w16 : List Nat) : List Nat := (scheduleAux 64 w16.reverse).reverse

/-- The five-word SHA-1 working state. -/
structure Sha1St where
  a : Nat
  b : Nat
  c : Nat
  d : Nat
  e : Nat

/-- One SHA-1 round: round function and constant chosen by the index. -/
def sha1Step (i w : Nat) (s : Sha1St) : Sha1St :=
  let f :=
    if i < 20 then (s.b &&& s.c) ||| ((s.b ^^^ 4294967295) &&& s.d)
    else if i < 40 then s.b ^^^ s.c ^^^ s.d
    else if i < 60 then (s.b &&& s.c) ||| (s.b &&& s.d) ||| (s.c &&& s.d)
    else s.b ^^^ s.c ^^^ s.d
  let k :=
    if i < 20 then 1518500249 else if i < 40 then 1859775393
    else if i < 60 then 2400959708 else 3395469782
  ⟨(rotl 5 s.a + f + s.e + k + w) % 4294967296, s.a, rotl 30 s.b, s.c, s.d⟩

/-- Run the eighty SHA-1 rounds over the schedule words. -/
def sha1Loop : Nat → List Nat → Sha1St → Sha1St
  | _, [], s => s
  | i, w :: ws, s => sha1Loop (i + 1) ws (sha1Step i w s)

/-- SHA-1 compression of one sixty-four byte block. -/
def sha1Compress (h : Sha1St) (block : List Nat) : Sha1St :=
  let s := sha1Loop 0 (schedule (toWords block)) h
  ⟨(h.a + s.a) % 4294967296, (h.b + s.b) % 4294967296, (h.c + s.c) % 4294967296,
   (h.d + s.d) % 4294967296, (h.e + s.e) % 4294967296⟩

/-- SHA-1 of a byte string, as the twenty digest bytes. -/
def sha1 (msg : List Nat) : List Nat :=
  let padded := sha1Pad msg
  let fin := (chunksAux padded.length padded).foldl sha1Compress
    ⟨1732584193, 4023233417, 2562383102, 271733878, 3285377520⟩
  beBytes 4 fin.a ++ beBytes 4 fin.b ++ beBytes 4 fin.c ++ beBytes 4 fin.d ++ beBytes 4 fin.e

/-- HMAC-SHA1 with the standard sixty-four byte block size, the semantics
of hmac.new(key, msg, sha1) in the source. -/
def hmacSha1 (key msg : List Nat) : List Nat :=
  let k0 := if key.length > 64 then sha1 key else key
  let kp := k0 ++ List.replicate (64 - k0.length) 0
  sha1 ((kp.map (fun b => b ^^^ 92)) ++ sha1 ((kp.map (fun b => b ^^^ 54)) ++ msg))

/-- Standard base64 alphabet lookup. -/
def b64Char (n : Nat) : Char :=
  "ABCDEFGHIJKLMNOPQRSTUVWXYZabcdefghijklmnopqrstuvwxyz0123456789+/".data.getD n 'A'

/-- Standard base64 encoding with padding, the semantics of
base64.b64encode in the source. -/
def base64Encode : List Nat → String
  | [] => ""
  | [a] => String.mk [b64Char (a >>> 2), b64Char ((a &&& 3) <<< 4), '=', '=']
  | [a, b] =>
      String.mk [b64Char (a >>> 2), b64Char (((a &&& 3) <<< 4) ||| (b >>> 4)),
        b64Char ((b &&& 15) <<< 2), '=']
  | a :: b :: c :: rest =>
      String.mk [b64Char (a >>> 2), b64Char (((a &&& 3) <<< 4) ||| (b >>> 4)),
        b64Char (((b &&& 15) <<< 2) ||| (c >>> 6)), b64Char (c &&& 63)]
        ++ base64Encode rest

/-- Byte-wise lexicographic comparison of byte strings: the Python 2
ordering of plain strings used by sorted in _compute_signature. -/
def bytesLe : List Nat → List Nat → Bool
  | [], _ => true
  | _ :: _, [] => false
  | a :: as, b :: bs => if a < b then true else if b < a then false else bytesLe as bs

/-- Pair comparison as Python compares the tuples of dict.items: by key,
then by value on equal keys. -/
def pairLeB (p q : List Nat × List Nat) : Bool :=
  if p.1 = q.1 then bytesLe p.2 q.2 else bytesLe p.1 q.1

/-- Propositional form of the pair ordering. -/
def pairLe (p q : List Nat × List Nat) : Prop := pairLeB p q = true

instance : DecidableRel pairLe :=
  fun p q => inferInstanceAs (Decidable (pairLeB p q = true))

/-- The sorted parameter list: sorted(parameters.items()) of the source.
Any correct sort agrees with Python sorted here because the tuple
ordering is total and antisymmetric. -/
def sortedParams (ps : List (List Nat × List Nat)) : List (List Nat × List Nat) :=
  List.insertionSort pairLe ps

/-- Join strings with ampersands, the semantics of the join in the
source's canonicalized query string. -/
def joinAmp : List String → String
  | [] => ""
  | [s] => s
  | s :: rest => s ++ "&" ++ joinAmp rest

/-- The canonicalized query string of _compute_signature: sorted pairs,
each percent-encoded and joined as key equals value with ampersands. -/
def canonicalizedQueryString (ps : List (List Nat × List Nat)) : String :=
  joinAmp ((sortedParams ps).map
    (fun p => percentEncodeBytes p.1 ++ "=" ++ percentEncodeBytes p.2))

/-- The string to sign: the fixed GET prefix followed by the percent
encoding of the whole canonicalized query string. -/
def stringToSign (ps : List (List Nat × List Nat)) : String :=
  "GET&%2F&" ++ percentEncodeBytes (utf8Encode (canonicalizedQueryString ps))

/-- Connection._compute_signature: HMAC-SHA1 of the string to sign under
the secret followed by an ampersand byte, then base64. -/
def computeSignature (secret : List Nat) (ps : List (List Nat × List Nat)) : String :=
  base64Encode (hmacSha1 (secret ++ [38]) (utf8Encode (stringToSign ps)))

set_option maxRecDepth 100000 in
/-- C1: for the secret and the three-entry parameter mapping of the
regression fixture, the computed signature is exactly the fixed base64
string of the unit test. -/
theorem computeSignature_regression :
    computeSignature (utf8Encode "some_secret_access_key")
      [(utf8Encode "abc", utf8Encode "def"),
       (utf8Encode "ä", utf8Encode "str type"),
       (utf8Encode "*+ ~", utf8Encode "*+ ~")] = "Esu7vZK6JBsujsaQXT1AHKR5Ols=" := by
  decide

theorem bytesLe_total (a b : List Nat) : bytesLe a b = true ∨ bytesLe b a = true := by
  induction a generalizing b with
  | nil => exact Or.inl rfl
  | cons x xs ih =>
    cases b with
    | nil => exact Or.inr rfl
    | cons y ys =>
      rcases Nat.lt_trichotomy x y with h | h | h
      · exact Or.inl (by simp [bytesLe, h])
      · subst h
        rcases ih ys with h2 | h2
        · exact Or.inl (by simp [bytesLe, h2])
        · exact Or.inr (by simp [bytesLe, h2])
      · exact Or.inr (by simp [bytesLe, h])

theorem bytesLe_antisymm {a b : List Nat} (h1 : bytesLe a b = true)
    (h2 : bytesLe b a = true) : a = b := by
  induction a generalizing b with
  | nil =>
    cases b with
    | nil => rfl
    | cons y ys => simp [bytesLe] at h2
  | cons x xs ih =>
    cases b with
    | nil => simp [bytesLe] at h1
    | cons y ys =>
      simp only [bytesLe] at h1 h2
      rcases Nat.lt_trichotomy x y with h | h | h
      · rw [if_neg (Nat.lt_asymm h), if_pos h] at h2
        exact absurd h2 Bool.false_ne_true
      · subst h
        rw [if_neg (Nat.lt_irrefl x), if_neg (Nat.lt_irrefl x)] at h1 h2
        rw [ih h1 h2]
      · rw [if_neg (Nat.lt_asymm h), if_pos h] at h1
        exact absurd h1 Bool.false_ne_true

theorem bytesLe_trans {a b c : List Nat} (h1 : bytesLe a b = true)
    (h2 : bytesLe b c = true) : bytesLe a c = true := by
  induction a generalizing b c with
  | nil => rfl
  | cons x xs ih =>
    cases b with
    | nil => simp [bytesLe] at h1
    | cons y ys =>
      cases c with
      | nil => simp [bytesLe] at h2
      | cons z zs =>
        simp only [bytesLe] at h1 h2 ⊢
        rcases Nat.lt_trichotomy x y with hxy | hxy | hxy
        · rcases Nat.lt_trichotomy y z with hyz | hyz | hyz
          · rw [if_pos (Nat.lt_trans hxy hyz)]
          · subst hyz
            rw [if_pos hxy]
          · rw [if_neg (Nat.lt_asymm hyz), if_pos hyz] at h2
            exact absurd h2 Bool.false_ne_true
        · subst hxy
          rw [if_neg (Nat.lt_irrefl x), if_neg (Nat.lt_irrefl x)] at h1
          rcases Nat.lt_trichotomy x z with hxz | hxz | hxz
          · rw [if_pos hxz]
          · subst hxz
            rw [if_neg (Nat.lt_irrefl x), if_neg (Nat.lt_irrefl x)] at h2 ⊢
            exact ih h1 h2
          · rw [if_neg (Nat.lt_asymm hxz), if_pos hxz] at h2
            exact absurd h2 Bool.false_ne_true
        · rw [if_neg (Nat.lt_asymm hxy), if_pos hxy] at h1
          exact absurd h1 Bool.false_ne_true

instance : IsTotal (List Nat × List Nat) pairLe :=
  ⟨by
    intro p q
    unfold pairLe pairLeB
    by_cases h : p.1 = q.1
    · rw [if_pos h, if_pos h.symm]
      exact bytesLe_total p.2 q.2
    · have h2 : ¬q.1 = p.1 := fun e => h e.symm
      rw [if_neg h, if_neg h2]
      exact bytesLe_total p.1 q.1⟩

instance : IsTrans (List Nat × List Nat) pairLe :=
  ⟨by
    intro p q r h1 h2
    unfold pairLe pairLeB at h1 h2 ⊢
    by_cases hpq : p.1 = q.1 <;> by_cases hqr : q.1 = r.1
    · have hpr : p.1 = r.1 := hpq.trans hqr
      rw [if_pos hpq] at h1
      rw [if_pos hqr] at h2
      rw [if_pos hpr]
      exact bytesLe_trans h1 h2
    · have hpr : ¬p.1 = r.1 := fun e => hqr (hpq.symm.trans e)
      rw [if_pos hpq] at h1
      rw [if_neg hqr] at h2
      rw [if_neg hpr, hpq]
      exact h2
    · have hpr : ¬p.1 = r.1 := fun e => hpq (e.trans hqr.symm)
      rw [if_neg hpq] at h1
      rw [if_neg hpr, ← hqr]
      exact h1
    · rw [if_neg hpq] at h1
      rw [if_neg hqr] at h2
      by_cases hpr : p.1 = r.1
      · refine absurd (bytesLe_antisymm h1 ?_) hpq
        rw [hpr]
        exact h2
      · rw [if_neg hpr]
        exact bytesLe_trans h1 h2⟩

instance : IsAntisymm (List Nat × List Nat) pairLe :=
  ⟨by
    intro p q h1 h2
    unfold pairLe pairLeB at h1 h2
    by_cases h : p.1 = q.1
    · have hq : q.1 = p.1 := h.symm
      rw [if_pos h] at h1
      rw [if_pos hq] at h2
      exact Prod.ext h (bytesLe_antisymm h1 h2)
    · have hq : ¬q.1 = p.1 := fun e => h e.symm
      rw [if_neg h] at h1
      rw [if_neg hq] at h2
      exact absurd (bytesLe_antisymm h1 h2) h⟩

theorem sortedParams_perm_eq {l1 l2 : List (List Nat × List Nat)} (h : l1.Perm l2) :
    sortedParams l1 = sortedParams l2 :=
  List.eq_of_perm_of_sorted
    ((List.perm_insertionSort pairLe l1).trans
      (h.trans (List.perm_insertionSort pairLe l2).symm))
    (List.sorted_insertionSort pairLe l1)
    (List.sorted_insertionSort pairLe l2)

/-- C2: the signature depends only on the set of key-value pairs: for
every secret and any two parameter lists that are permutations of each
other, _compute_signature returns the same string, because the pairs are
sorted under a total antisymmetric order before serialization. -/
theorem computeSignature_order_independent (secret : List Nat)
    {l1 l2 : List (List Nat × List Nat)} (h : l1.Perm l2) :
    computeSignature secret l1 = computeSignature secret l2 := by
  unfold computeSignature stringToSign canonicalizedQueryString
  rw [sortedParams_perm_eq h]

/-- C2 witness: a concrete two-entry mapping and its reversal produce
the same signature. -/
theorem computeSignature_order_independent_witness :
    computeSignature (utf8Encode "k")
      [(utf8Encode "a", utf8Encode "1"), (utf8Encode "b", utf8Encode "2")] =
    computeSignature (utf8Encode "k")
      [(utf8Encode "b", utf8Encode "2"), (utf8Encode "a", utf8Encode "1")] :=
  computeSignature_order_independent (utf8Encode "k")
    (List.Perm.swap (utf8Encode "b", utf8Encode "2") (utf8Encode "a", utf8Encode "1") [])

/-- A Python dict of strings, modelled as an association list with unique
keys; the source mutates one dict object, which the embedding models by
threading the list through explicitly. -/
abbrev Dict := List (String × String)

/-- Dict assignment: overwrite the entry holding the key if present,
otherwise append a new entry at the end. -/
def dset : Dict → String → String → Dict
  | [], k, v => [(k, v)]
  | p :: rest, k, v => if p.1 == k then (k, v) :: rest else p :: dset rest k v

/-- Python key-in-dict membership. -/
def dcontains : Dict → String → Bool
  | [], _ => false
  | p :: rest, k => p.1 == k || dcontains rest k

/-- Python dict subscript read, as an option. -/
def dlookup : Dict → String → Option String
  | [], _ => none
  | p :: rest, k => if p.1 == k then some p.2 else dlookup rest k

/-- Python dict.pop: the dict without the key. -/
def dremove : Dict → String → Dict
  | [], _ => []
  | p :: rest, k => if p.1 == k then dremove rest k else p :: dremove rest k

/-- Python dict.update: set every entry of the other mapping in order,
so later entries and caller values win. -/
def dupdate (d : Dict) (other : List (String × String)) : Dict :=
  other.foldl (fun acc p => dset acc p.1 p.2) d

theorem dset_dset_same (d : Dict) (k v w : String) :
    dset (dset d k v) k w = dset d k w := by
  induction d with
  | nil => simp [dset]
  | cons p rest ih =>
    by_cases h : p.1 = k
    · simp [dset, h]
    · simp [dset, h, ih]

theorem dlookup_dset_self (d : Dict) (k v : String) :
    dlookup (dset d k v) k = some v := by
  induction d with
  | nil => simp [dset, dlookup]
  | cons p rest ih =>
    by_cases h : p.1 = k
    · simp [dset, dlookup, h]
    · simp [dset, dlookup, h, ih]

theorem dlookup_dset_ne (d : Dict) {k' k : String} (v : String) (h : ¬k' = k) :
    dlookup (dset d k v) k' = dlookup d k' := by
  have h' : ¬k = k' := fun e => h e.symm
  induction d with
  | nil => simp [dset, dlookup, h']
  | cons p rest ih =>
    by_cases hp : p.1 = k
    · subst hp
      simp [dset, dlookup, h']
    · have hd : dset (p :: rest) k v = p :: dset rest k v := by simp [dset, hp]
      rw [hd]
      show (if p.1 == k' then some p.2 else dlookup (dset rest k v) k') = _
      rw [ih]
      rfl

theorem dcontains_dset (d : Dict) (k' k v : String) :
    dcontains (dset d k v) k' = (k == k' || dcontains d k') := by
  induction d with
  | nil => simp [dset, dcontains]
  | cons p rest ih =>
    by_cases h : p.1 = k
    · subst h
      simp [dset, dcontains]
    · simp only [dset, beq_iff_eq, h, if_false, dcontains, ih]
      cases hk : (p.1 == k') <;> simp [Bool.or_assoc, Bool.or_comm, Bool.or_left_comm]

theorem dcontains_dremove_self (d : Dict) (k : String) :
    dcontains (dremove d k) k = false := by
  induction d with
  | nil => rfl
  | cons p rest ih =>
    by_cases h : p.1 = k
    · simp [dremove, h, ih]
    · simp [dremove, dcontains, h, ih]

theorem dlookup_dupdate_not_mem (l : List (String × String)) (d : Dict) {k : String}
    (h : ∀ p ∈ l, ¬p.1 = k) : dlookup (dupdate d l) k = dlookup d k := by
  induction l generalizing d with
  | nil => rfl
  | cons p rest ih =>
    show dlookup (dupdate (dset d p.1 p.2) rest) k = dlookup d k
    rw [ih (dset d p.1 p.2) (fun q hq => h q (List.mem_cons_of_mem p hq))]
    exact dlookup_dset_ne d p.2 (fun e => h p (List.mem_cons_self p rest) e.symm)

/-- The PAGE_SIZE constant of the source. -/
def PAGE_SIZE : Nat := 50

/-- The default parameter dict of Connection._build_request, in source
order; version, access key id, nonce, timestamp and region id are inputs
here because the source reads them from the connection object, the uuid
generator and the clock. -/
def defaultParameters (version accessKeyId nonce timestamp regionId : String) : Dict :=
  [("Format", "JSON"), ("Version", version), ("AccessKeyId", accessKeyId),
   ("SignatureVersion", "1.0"), ("SignatureMethod", "HMAC-SHA1"),
   ("SignatureNonce", nonce), ("TimeStamp", timestamp), ("RegionId", regionId)]

/-- The merged parameter set of _build_request: defaults overlaid with
the caller parameters, caller values winning on key collision. -/
def mergedParameters (version accessKeyId nonce timestamp regionId : String)
    (params : Dict) : Dict :=
  dupdate (defaultParameters version accessKeyId nonce timestamp regionId) params

/-- Connection._build_request up to the final query parameter set: merge
defaults with caller parameters, drop RegionId when a DomainName key is
present, then add the computed Signature entry. -/
def buildRequestParameters (secret : List Nat)
    (version accessKeyId nonce timestamp regionId : String) (params : Dict) : Dict :=
  let parameters := mergedParameters version accessKeyId nonce timestamp regionId params
  let parameters :=
    if dcontains parameters "DomainName" then dremove parameters "RegionId" else parameters
  dset parameters "Signature"
    (computeSignature secret (parameters.map (fun p => (utf8Encode p.1, utf8Encode p.2))))

/-- C6 counterexample: a caller that supplies its own RegionId and no
DomainName gets a final parameter set whose RegionId is the caller's
value, not the connection's region id, because caller values win the
merge. -/
theorem buildRequest_regionId_counterexample :
    dcontains (mergedParameters "2014-05-26" "ak" "nonce" "ts" "cn-hangzhou"
      [("RegionId", "other")]) "DomainName" = false ∧
    dlookup (buildRequestParameters [] "2014-05-26" "ak" "nonce" "ts" "cn-hangzhou"
      [("RegionId", "other")]) "RegionId" = some "other" ∧
    (some "other" : Option String) ≠ some "cn-hangzhou" := by
  refine ⟨rfl, rfl, by decide⟩

/-- C6 amended: when the merged parameters contain DomainName the final
set has no RegionId key; when they do not, RegionId is present and holds
the merged value, which is the connection's region id whenever the
caller did not supply a RegionId of its own (caller values win on
collision). -/
theorem buildRequest_regionId (secret : List Nat)
    (version accessKeyId nonce timestamp regionId : String) (params : Dict) :
    (dcontains (mergedParameters version accessKeyId nonce timestamp regionId params)
        "DomainName" = true →
      dcontains (buildRequestParameters secret version accessKeyId nonce timestamp
        regionId params) "RegionId" = false) ∧
    (dcontains (mergedParameters version accessKeyId nonce timestamp regionId params)
        "DomainName" = false →
      dlookup (buildRequestParameters secret version accessKeyId nonce timestamp
          regionId params) "RegionId" =
        dlookup (mergedParameters version accessKeyId nonce timestamp regionId params)
          "RegionId" ∧
      ((∀ p ∈ params, ¬p.1 = "RegionId") →
        dlookup (buildRequestParameters secret version accessKeyId nonce timestamp
          regionId params) "RegionId" = some regionId)) := by
  constructor
  · intro h
    unfold buildRequestParameters
    simp only [h, if_true]
    rw [dcontains_dset]
    simp only [dcontains_dremove_self]
    decide
  · intro h
    have hne : ¬("RegionId" : String) = "Signature" := by decide
    have h1 : dlookup (buildRequestParameters secret version accessKeyId nonce timestamp
        regionId params) "RegionId" =
        dlookup (mergedParameters version accessKeyId nonce timestamp regionId params)
          "RegionId" := by
      unfold buildRequestParameters
      simp only [h, if_false]
      exact dlookup_dset_ne _ _ hne
    refine ⟨h1, fun hmem => ?_⟩
    rw [h1]
    unfold mergedParameters
    rw [dlookup_dupdate_not_mem params _ hmem]
    rfl

/-- C6 witness: for a caller mapping with only an Action key the final
set carries the connection's region id, and for a caller mapping with a
DomainName key the final set has no RegionId at all. -/
theorem buildRequest_regionId_witness :
    dlookup (buildRequestParameters [] "v" "ak" "n" "t" "r" [("Action", "X")])
      "RegionId" = some "r" ∧
    dcontains (buildRequestParameters [] "v" "ak" "n" "t" "r"
      [("DomainName", "example.com")]) "RegionId" = false := by
  constructor
  · exact ((buildRequest_regionId [] "v" "ak" "n" "t" "r" [("Action", "X")]).2
      (by decide)).2 (by decide)
  · exact (buildRequest_regionId [] "v" "ak" "n" "t" "r"
      [("DomainName", "example.com")]).1 (by decide)

/-- Connection._get_remaining_pages: zero when the total fits one page,
else floor division of the remainder with one added when it is inexact. -/
def remainingPages (totalCount : Nat) : Nat :=
  if totalCount ≤ PAGE_SIZE then 0
  else
    let pages := (totalCount - PAGE_SIZE) / PAGE_SIZE
    if (totalCount - PAGE_SIZE) % PAGE_SIZE > 0 then pages + 1 else pages

/-- The while loop of _perform_paginated_queries: a given number of
iterations left, requesting the given page number next; the parameter
dict is threaded through and overwritten by each iteration, modelling
the single mutated Python dict object. -/
def fetchPages {R : Type} (fetch : Dict → R) : Nat → Nat → Dict → List R × Dict
  | 0, _, d => ([], d)
  | n + 1, pageNo, d =>
      let d1 := dset d "PageNumber" (toString pageNo)
      let rest := fetchPages fetch n (pageNo + 1) d1
      (fetch d1 :: rest.1, rest.2)

/-- Connection._perform_paginated_queries over an abstract transport:
fetch stands for the non-paginated get of one parameter dict, and
totalCountOf reads the TotalCount field of a response.  The second
component is the caller's parameter dict as the source leaves it when
the call returns. -/
def performPaginatedQueries {R : Type} (totalCountOf : R → Nat) (fetch : Dict → R)
    (params : Dict) : List R × Dict :=
  let p1 := dset params "PageSize" (toString PAGE_SIZE)
  let resp := fetch p1
  if totalCountOf resp = 0 then ([resp], p1)
  else
    let rest := fetchPages fetch (remainingPages (totalCountOf resp)) 2 p1
    (resp :: rest.1, rest.2)

theorem fetchPages_spec {R : Type} (fetch : Dict → R) (n : Nat) :
    ∀ (pageNo : Nat) (d : Dict),
      (fetchPages fetch n pageNo d).1 =
        (List.range n).map (fun j => fetch (dset d "PageNumber" (toString (pageNo + j)))) ∧
      (fetchPages fetch n pageNo d).2 =
        (if n = 0 then d else dset d "PageNumber" (toString (pageNo + n - 1))) := by
  induction n with
  | zero => intro pageNo d; exact ⟨rfl, rfl⟩
  | succ m ih =>
    intro pageNo d
    constructor
    · show fetch (dset d "PageNumber" (toString pageNo)) ::
        (fetchPages fetch m (pageNo + 1) (dset d "PageNumber" (toString pageNo))).1 = _
      rw [(ih (pageNo + 1) (dset d "PageNumber" (toString pageNo))).1,
        List.range_succ_eq_map, List.map_cons, List.map_map]
      congr 1
      apply List.map_congr_left
      intro j hj
      show fetch (dset (dset d "PageNumber" (toString pageNo)) "PageNumber"
          (toString (pageNo + 1 + j))) =
        fetch (dset d "PageNumber" (toString (pageNo + Nat.succ j)))
      rw [dset_dset_same]
      have he : pageNo + 1 + j = pageNo + Nat.succ j := by omega
      rw [he]
    · show (fetchPages fetch m (pageNo + 1) (dset d "PageNumber" (toString pageNo))).2 = _
      rw [(ih (pageNo + 1) (dset d "PageNumber" (toString pageNo))).2]
      cases m with
      | zero => simp
      | succ l =>
        rw [if_neg (by omega), if_neg (by omega), dset_dset_same]
        have : pageNo + 1 + (l + 1) - 1 = pageNo + (l + 1 + 1) - 1 := by omega
        rw [this]

theorem remainingPages_law (t : Nat) (h : 0 < t) :
    1 + remainingPages t = max 1 ((t + PAGE_SIZE - 1) / PAGE_SIZE) := by
  unfold remainingPages
  simp only [PAGE_SIZE]
  have hx : 1 ≤ (t + 50 - 1) / 50 := by omega
  rw [Nat.max_eq_right hx]
  split_ifs <;> omega

/-- C3: a paginated get returns one response when the first TotalCount
is zero; otherwise it returns, in page order, a list of length
max one, ceiling of TotalCount over the page size of fifty; the
remaining-page count is zero for a total within one page and the ceiling
of the remainder over fifty otherwise; and the response at position
j plus one was fetched with PageNumber set to j plus two, on the same
threaded parameter dict holding PageSize fifty. -/
theorem paginatedQueries_spec {R : Type} (totalCountOf : R → Nat) (fetch : Dict → R)
    (params : Dict) :
    (totalCountOf (fetch (dset params "PageSize" (toString PAGE_SIZE))) = 0 →
      (performPaginatedQueries totalCountOf fetch params).1 =
        [fetch (dset params "PageSize" (toString PAGE_SIZE))]) ∧
    (0 < totalCountOf (fetch (dset params "PageSize" (toString PAGE_SIZE))) →
      (performPaginatedQueries totalCountOf fetch params).1.length =
        max 1 ((totalCountOf (fetch (dset params "PageSize" (toString PAGE_SIZE)))
          + PAGE_SIZE - 1) / PAGE_SIZE)) ∧
    (∀ t, remainingPages t =
      if t ≤ PAGE_SIZE then 0 else (t - PAGE_SIZE + PAGE_SIZE - 1) / PAGE_SIZE) ∧
    (∀ j, j < remainingPages (totalCountOf (fetch (dset params "PageSize"
        (toString PAGE_SIZE)))) →
      (performPaginatedQueries totalCountOf fetch params).1[j + 1]? =
        some (fetch (dset (dset params "PageSize" (toString PAGE_SIZE)) "PageNumber"
          (toString (j + 2))))) := by
  refine ⟨fun h0 => ?_, fun hpos => ?_, fun t => ?_, fun j hj => ?_⟩
  · unfold performPaginatedQueries
    rw [if_pos h0]
  · unfold performPaginatedQueries
    rw [if_neg (by omega)]
    show ((fetch _ :: (fetchPages fetch _ 2 _).1).length) = _
    rw [List.length_cons,
      (fetchPages_spec fetch (remainingPages (totalCountOf (fetch (dset params
        "PageSize" (toString PAGE_SIZE))))) 2 (dset params "PageSize"
        (toString PAGE_SIZE))).1,
      List.length_map, List.length_range]
    rw [← remainingPages_law _ hpos]
    omega
  · unfold remainingPages
    simp only [PAGE_SIZE]
    split_ifs <;> omega
  · have ht0 : ¬totalCountOf (fetch (dset params "PageSize" (toString PAGE_SIZE))) = 0 := by
      intro h0
      rw [h0] at hj
      simp [remainingPages, PAGE_SIZE] at hj
    unfold performPaginatedQueries
    rw [if_neg ht0]
    show ((fetch _ :: (fetchPages fetch _ 2 _).1))[j + 1]? = _
    rw [List.getElem?_cons_succ,
      (fetchPages_spec fetch (remainingPages (totalCountOf (fetch (dset params
        "PageSize" (toString PAGE_SIZE))))) 2 (dset params "PageSize"
        (toString PAGE_SIZE))).1,
      List.getElem?_map, List.getElem?_range hj]
    have he : 2 + j = j + 2 := by omega
    show some (fetch (dset (dset params "PageSize" (toString PAGE_SIZE)) "PageNumber"
      (toString (2 + j)))) = _
    rw [he]

/-- C3 witness: with a transport reporting TotalCount one hundred one,
three pages are fetched and the response at index two is the third
page's response. -/
theorem paginatedQueries_spec_witness :
    (performPaginatedQueries (fun t : Nat => t) (fun _ => 101) ([] : Dict)).1.length = 3 ∧
    (performPaginatedQueries (fun t : Nat => t) (fun _ => 101) ([] : Dict)).1[1 + 1]? =
      some 101 := by
  have h := paginatedQueries_spec (fun t : Nat => t) (fun _ => 101) ([] : Dict)
  constructor
  · rw [h.2.1 (by decide)]
    decide
  · rw [h.2.2.2 1 (by decide)]

/-- C10 counterexample: a paginated call with an empty caller dict and a
zero TotalCount leaves the caller's dict holding a PageSize entry it did
not have before the call: the mapping is mutated in place, not built
fresh. -/
theorem paginatedQueries_mutation_counterexample :
    dcontains (performPaginatedQueries (fun t : Nat => t) (fun _ => 0)
      ([] : Dict)).2 "PageSize" = true ∧
    dcontains ([] : Dict) "PageSize" = false := by
  exact ⟨rfl, rfl⟩

/-- C10 amended: the non-paginated path copies the caller parameters
into a fresh dict, but a paginated fetch mutates the caller's mapping in
place and carries that one mapping across the per-page requests: on
return it holds the added PageSize entry, and also the last written
PageNumber entry whenever more than one page was fetched. -/
theorem paginatedQueries_params_threading {R : Type} (totalCountOf : R → Nat)
    (fetch : Dict → R) (params : Dict) :
    (performPaginatedQueries totalCountOf fetch params).2 =
      (if remainingPages (totalCountOf (fetch (dset params "PageSize"
          (toString PAGE_SIZE)))) = 0
        ∨ totalCountOf (fetch (dset params "PageSize" (toString PAGE_SIZE))) = 0
       then dset params "PageSize" (toString PAGE_SIZE)
       else dset (dset params "PageSize" (toString PAGE_SIZE)) "PageNumber"
         (toString (remainingPages (totalCountOf (fetch (dset params "PageSize"
           (toString PAGE_SIZE)))) + 1))) := by
  unfold performPaginatedQueries
  by_cases h0 : totalCountOf (fetch (dset params "PageSize" (toString PAGE_SIZE))) = 0
  · rw [if_pos h0, if_pos (Or.inr h0)]
  · rw [if_neg h0]
    show (fetchPages fetch _ 2 _).2 = _
    rw [(fetchPages_spec fetch (remainingPages (totalCountOf (fetch (dset params
      "PageSize" (toString PAGE_SIZE))))) 2 (dset params "PageSize"
      (toString PAGE_SIZE))).2]
    by_cases hr : remainingPages (totalCountOf (fetch (dset params "PageSize"
      (toString PAGE_SIZE)))) = 0
    · rw [if_pos hr, if_pos (Or.inl hr)]
    · rw [if_neg hr, if_neg (by tauto)]
      have : 2 + remainingPages (totalCountOf (fetch (dset params "PageSize"
          (toString PAGE_SIZE)))) - 1 =
          remainingPages (totalCountOf (fetch (dset params "PageSize"
            (toString PAGE_SIZE)))) + 1 := by omega
      rw [this]

/-- The credentials pair of the source. -/
structure Credentials where
  accessKeyId : String
  secretAccessKey : String
deriving DecidableEq

/-- The parsed state of whichever config file find_credentials reads:
whether a default section exists, and the options it holds. -/
structure ConfigData where
  hasDefault : Bool
  options : List (String × String)

/-- A failure of find_credentials: either the module's Error with its
message, or a config parser error for a missing option (cp.get on an
absent option raises NoOptionError). -/
inductive CredError where
  | credNotFound (msg : String)
  | optionMissing (opt : String)
deriving DecidableEq

/-- ConfigParser has_option on the default section. -/
def cfgHasOption (cfg : ConfigData) (k : String) : Bool :=
  cfg.options.any (fun p => p.1 == k)

/-- ConfigParser get on the default section, as an option. -/
def cfgGet (cfg : ConfigData) (k : String) : Option String :=
  (cfg.options.find? (fun p => p.1 == k)).map (fun p => p.2)

/-- The config-file half of find_credentials: require the default
section and its access_key_id option, then read both keys with cp.get. -/
def configCredentials (cfg : ConfigData) : Except CredError Credentials :=
  if cfg.hasDefault && cfgHasOption cfg "access_key_id" then
    match cfgGet cfg "access_key_id", cfgGet cfg "secret_access_key" with
    | some a, some s => .ok ⟨a, s⟩
    | none, _ => .error (.optionMissing "access_key_id")
    | _, none => .error (.optionMissing "secret_access_key")
  else .error (.credNotFound "Could not find credentials.")

/-- find_credentials: return the two environment variables when both are
set, otherwise fall through to the config-file lookup. -/
def findCredentials (envAccessKeyId envSecretAccessKey : Option String)
    (cfg : ConfigData) : Except CredError Credentials :=
  match envAccessKeyId, envSecretAccessKey with
  | some a, some s => .ok ⟨a, s⟩
  | _, _ => configCredentials cfg

/-- C7 counterexample: with no environment variables and an empty config
the resolver fails with the message Could not find credentials followed
by a period, not the claimed message without one; and a config that has
the section and access_key_id but no secret_access_key fails with the
parser's missing-option error, not the not-found error. -/
theorem findCredentials_counterexample :
    findCredentials none none ⟨false, []⟩ =
      .error (.credNotFound "Could not find credentials.") ∧
    "Could not find credentials." ≠ "Could not find credentials" ∧
    findCredentials none none ⟨true, [("access_key_id", "k")]⟩ =
      .error (.optionMissing "secret_access_key") := by
  exact ⟨rfl, by decide, rfl⟩

/-- C7 amended: when both environment variables are set the pair is
returned with no config access (the result is the same for every config
state); when at most one is set the resolver falls through to exactly
the config-file lookup; and when that lookup finds no default section
or no access_key_id option, resolution fails with the module Error
carrying the message Could not find credentials followed by a period. -/
theorem findCredentials_priority :
    (∀ a s cfg, findCredentials (some a) (some s) cfg = .ok ⟨a, s⟩) ∧
    (∀ a cfg, findCredentials (some a) none cfg = configCredentials cfg ∧
      findCredentials none (some a) cfg = configCredentials cfg ∧
      findCredentials none none cfg = configCredentials cfg) ∧
    (∀ e1 e2 cfg, (e1.isSome && e2.isSome) = false →
      (cfg.hasDefault && cfgHasOption cfg "access_key_id") = false →
      findCredentials e1 e2 cfg = .error (.credNotFound "Could not find credentials.")) := by
  refine ⟨fun a s cfg => rfl, fun a cfg => ⟨rfl, rfl, rfl⟩, fun e1 e2 cfg h1 h2 => ?_⟩
  have hc : configCredentials cfg = .error (.credNotFound "Could not find credentials.") := by
    unfold configCredentials
    rw [h2]
    rfl
  match e1, e2 with
  | some a, some s => simp at h1
  | some a, none => exact hc
  | none, some s => exact hc
  | none, none => exact hc

/-- C7 witness: with both variables set the environment pair wins even
against a fully populated config, and with neither set over an empty
config the resolver fails with the not-found error. -/
theorem findCredentials_priority_witness :
    findCredentials (some "id") (some "secret")
      ⟨true, [("access_key_id", "a"), ("secret_access_key", "b")]⟩ =
      .ok ⟨"id", "secret"⟩ ∧
    findCredentials none none ⟨true, []⟩ =
      .error (.credNotFound "Could not find credentials.") := by
  exact ⟨findCredentials_priority.1 "id" "secret" _,
    findCredentials_priority.2.2 none none ⟨true, []⟩ (by decide) (by decide)⟩

/-- An HTTP response as the transport sees it: status code, raw body
bytes, and the content-type header value. -/
structure HttpResponse where
  status : Nat
  body : List Nat
  contentType : String

/-- The statuses urllib2 treats as success; anything else raises
HTTPError. -/
def isSuccessStatus (s : Nat) : Bool := 200 ≤ s && s < 300

/-- Whether a character-list contains the separator as a substring, with
fuel; mirrors the occurrence scan of Python str.split. -/
def hasSub (sep : List Char) : Nat → List Char → Bool
  | 0, _ => false
  | _ + 1, [] => false
  | n + 1, c :: cs => sep.isPrefixOf (c :: cs) || hasSub sep n cs

/-- The suffix after the last non-overlapping occurrence of the
separator, or the whole list when it never occurs: the semantics of
s.split(sep) followed by taking the last element. -/
def afterLastSub (sep : List Char) : Nat → List Char → List Char → List Char
  | 0, _, cur => cur
  | _ + 1, [], cur => cur
  | n + 1, c :: cs, cur =>
      if sep.isPrefixOf (c :: cs) then
        afterLastSub sep n ((c :: cs).drop sep.length) ((c :: cs).drop sep.length)
      else afterLastSub sep n cs cur

/-- The encoding name _get derives from the content-type header: the
part after the last occurrence of the text charset equals sign, or the
whole header value when that text does not occur. -/
def responseEncoding (contentType : String) : String :=
  String.mk (afterLastSub "charset=".data (contentType.data.length + 1)
    contentType.data contentType.data)

/-- Whether the content-type header mentions a charset parameter. -/
def mentionsCharset (contentType : String) : Bool :=
  hasSub "charset=".data (contentType.data.length + 1) contentType.data

/-- Connection._get over an abstract response: on success, decode the
body with the encoding taken from the content-type header and hand the
decoded text to the JSON parser, returning its result unchanged; on a
non-success status, fail carrying the raw body bytes.  The decode and
parseJson arguments model the Python codec machinery and json.loads. -/
def httpGet {J : Type} (decode : String → List Nat → String) (parseJson : String → J)
    (resp : HttpResponse) : Except (List Nat) J :=
  if isSuccessStatus resp.status then
    .ok (parseJson (decode (responseEncoding resp.contentType) resp.body))
  else .error resp.body

/-- C8: a non-success status makes _get fail with exactly the response
body bytes, unaltered, with no retry. -/
theorem httpGet_error_body {J : Type} (decode : String → List Nat → String)
    (parseJson : String → J) (resp : HttpResponse)
    (h : isSuccessStatus resp.status = false) :
    httpGet decode parseJson resp = .error resp.body := by
  unfold httpGet
  rw [h]
  rfl

/-- C8 witness: a 400 response whose body is the InvalidParameter JSON
text fails with exactly those body bytes. -/
theorem httpGet_error_body_witness :
    httpGet (fun _ _ => "") (fun s => s)
      ⟨400, utf8Encode "\x7b\"Code\":\"InvalidParameter\"\x7d", "application/json"⟩ =
      .error (utf8Encode "\x7b\"Code\":\"InvalidParameter\"\x7d") :=
  httpGet_error_body (fun _ _ => "") (fun s => s)
    ⟨400, utf8Encode "\x7b\"Code\":\"InvalidParameter\"\x7d", "application/json"⟩ rfl

theorem afterLastSub_of_not_hasSub (sep : List Char) (n : Nat) :
    ∀ (l cur : List Char), hasSub sep n l = false → afterLastSub sep n l cur = cur := by
  induction n with
  | zero => intro l cur h; rfl
  | succ m ih =>
    intro l cur h
    cases l with
    | nil => rfl
    | cons c cs =>
      unfold hasSub at h
      unfold afterLastSub
      rcases Bool.or_eq_false_iff.1 h with ⟨h1, h2⟩
      rw [h1]
      simp only [Bool.false_eq_true, if_false]
      exact ih cs cur h2

/-- C9 counterexample: for a successful response whose content-type is
application/json with no charset parameter, _get hands the whole
content-type value to the decoder as the encoding name; it does not
fall back to a platform default encoding or to UTF-8. -/
theorem httpGet_encoding_counterexample :
    httpGet (fun enc _ => enc) (fun s => s) ⟨200, [], "application/json"⟩ =
      .ok "application/json" ∧
    ("application/json" : String) ≠ "ascii" ∧
    ("application/json" : String) ≠ "utf8" ∧
    ("application/json" : String) ≠ "utf-8" := by
  refine ⟨rfl, by decide, by decide, by decide⟩

/-- C9 amended: on success _get decodes the body with the substring of
the content-type header after its last occurrence of charset equals
sign, parses the decoded text as JSON and returns the parsed value
unmodified; when the header has no charset parameter the entire header
value is used as the encoding name, with no fallback. -/
theorem httpGet_success {J : Type} (decode : String → List Nat → String)
    (parseJson : String → J) (resp : HttpResponse)
    (h : isSuccessStatus resp.status = true) :
    httpGet decode parseJson resp =
      .ok (parseJson (decode (responseEncoding resp.contentType) resp.body)) ∧
    (mentionsCharset resp.contentType = false →
      responseEncoding resp.contentType = resp.contentType) := by
  constructor
  · unfold httpGet
    rw [h]
    rfl
  · intro hn
    unfold responseEncoding
    rw [afterLastSub_of_not_hasSub _ _ _ _ hn]

/-- C9 witness: a successful response with a charset parameter decodes
with the declared charset, and one without decodes with the whole
content-type value. -/
theorem httpGet_success_witness :
    httpGet (fun enc _ => enc) (fun s => s)
      ⟨200, [], "application/json; charset=windows-1250"⟩ = .ok "windows-1250" ∧
    responseEncoding "text/plain" = "text/plain" := by
  constructor
  · exact (httpGet_success (fun enc _ => enc) (fun s => s)
      ⟨200, [], "application/json; charset=windows-1250"⟩ rfl).1.trans (by rfl)
  · exact (httpGet_success (fun enc _ => enc) (fun s => s)
      ⟨200, [], "text/plain"⟩ rfl).2 (by decide)

end Aliyun
